import Mathlib

/-!
Shallow embedding of tempo_importer.py (jira-tempo-importer).

The row normalizer, the per-row orchestration loop of process_worksheet and
the cell write of the local worksheet adapter are translated into executable
Lean definitions.  Machine text is List Char under String; Python float
arithmetic on plain decimal literals is modelled by exact rationals with
truncation toward zero, matching int() on the inputs the importer feeds it.
Network effects (the Tempo submission) are abstracted by a success oracle in
the environment; a submission record is appended whenever log_time_to_tempo
is invoked for a row.
-/

/-- Whitespace test used by the Python str.strip model, covering the ASCII
whitespace characters (space, tab, newline, carriage return, vertical tab,
form feed). -/
def isPySpace (c : Char) : Bool :=
  c = ' ' || c = '\t' || c = '\n' || c = '\r' || c = Char.ofNat 11 || c = Char.ofNat 12

/-- Python str.strip on a character list: drop whitespace from both ends. -/
def pyStripList (cs : List Char) : List Char :=
  ((cs.dropWhile isPySpace).reverse.dropWhile isPySpace).reverse

/-- Python str.strip (ASCII whitespace model). -/
def pyStrip (s : String) : String := ⟨pyStripList s.data⟩

/-- Python s.rstrip with argument "." : drop trailing dots. -/
def pyRstripDots (s : String) : String :=
  ⟨(s.data.reverse.dropWhile (fun c => c = '.')).reverse⟩

/-- Python str.upper on one character (ASCII model). -/
def pyUpperChar (c : Char) : Char :=
  if 'a' ≤ c ∧ c ≤ 'z' then Char.ofNat (c.toNat - 32) else c

/-- Python str.upper (ASCII model). -/
def pyUpper (s : String) : String := ⟨s.data.map pyUpperChar⟩

/-- Numeric value of a decimal digit character. -/
def digitVal (c : Char) : Nat := c.toNat - '0'.toNat

/-- Second regex group (\d{1,2}) of parse_date: one or two digits, greedy,
with no requirement on what follows. -/
def matchMonth (cs : List Char) : Option Nat :=
  match cs with
  | [] => none
  | m1 :: rest =>
    if m1.isDigit then
      match rest with
      | [] => some (digitVal m1)
      | m2 :: _ =>
        if m2.isDigit then some (10 * digitVal m1 + digitVal m2) else some (digitVal m1)
    else none

/-- re.match of the pattern (\d{1,2})\.(\d{1,2}) : anchored at the start of
the string.  The first group is greedy with backtracking: after two digits a
literal dot must follow; when the second character is a digit but the third
is not a dot, the one-digit alternative also fails because the second
character would then have to be the dot. -/
def matchDM (cs : List Char) : Option (Nat × Nat) :=
  match cs with
  | [] => none
  | c1 :: rest =>
    if c1.isDigit then
      match rest with
      | [] => none
      | c2 :: rest2 =>
        if c2.isDigit then
          match rest2 with
          | '.' :: rest3 => (matchMonth rest3).map (fun m => (10 * digitVal c1 + digitVal c2, m))
          | _ => none
        else if c2 = '.' then
          (matchMonth rest2).map (fun m => (digitVal c1, m))
        else none
    else none

/-- Gregorian leap year rule, as used by datetime. -/
def isLeap (y : Int) : Bool := (y % 4 == 0 && y % 100 != 0) || y % 400 == 0

/-- Length of a month, as used by datetime. -/
def daysInMonth (y : Int) (m : Nat) : Nat :=
  if m = 2 then (if isLeap y then 29 else 28)
  else if m = 4 ∨ m = 6 ∨ m = 9 ∨ m = 11 then 30
  else 31

/-- Domain of datetime(year, month, day): the constructor raises ValueError
outside these bounds (MINYEAR = 1, MAXYEAR = 9999). -/
def dateValid (y : Int) (m d : Nat) : Bool :=
  decide (1 ≤ y ∧ y ≤ 9999 ∧ 1 ≤ m ∧ m ≤ 12 ∧ 1 ≤ d ∧ d ≤ daysInMonth y m)

/-- Two-digit zero padding, as in strftime %m and %d. -/
def pad2 (n : Nat) : String := if n < 10 then "0" ++ toString n else toString n

/-- strftime "%Y-%m-%d". -/
def formatYMD (y : Int) (m d : Nat) : String :=
  toString y ++ "-" ++ pad2 m ++ "-" ++ pad2 d

/-- parse_date from tempo_importer.py: blank input is rejected first, then
the input is stripped and trailing dots removed, the year argument defaults
to the current year, the anchored regex extracts day and month, and the
datetime constructor validates the calendar date. -/
def parse_date (dateStr : String) (year : Option Int) (currentYear : Int) : Option String :=
  if dateStr = "" ∨ pyStrip dateStr = "" then none
  else
    let s := pyRstripDots (pyStrip dateStr)
    let y := year.getD currentYear
    match matchDM s.data with
    | none => none
    | some (d, m) => if dateValid y m d then some (formatYMD y m d) else none

/-- Value of a digit string read left to right. -/
def digitsVal (cs : List Char) : Nat := cs.foldl (fun a c => 10 * a + digitVal c) 0

/-- Python float() on a plain unsigned decimal literal: integer digits, an
optional dot with fractional digits, at least one digit overall, nothing
else.  The value n / d is returned as an exact numerator-denominator pair
with d a positive power of ten.  The importer strips its input first and
only ever feeds spreadsheet hour cells to float(); exponent forms,
infinities, nan and underscore separators are outside the model. -/
def parseDecimalCore (cs : List Char) : Option (Nat × Nat) :=
  let ip := cs.takeWhile Char.isDigit
  let rest := cs.dropWhile Char.isDigit
  match rest with
  | [] => if ip = [] then none else some (digitsVal ip, 1)
  | '.' :: rest2 =>
    let fp := rest2.takeWhile Char.isDigit
    let rest3 := rest2.dropWhile Char.isDigit
    if rest3 ≠ [] then none
    else if ip = [] ∧ fp = [] then none
    else some (digitsVal ip * 10 ^ fp.length + digitsVal fp, 10 ^ fp.length)
  | _ => none

/-- Python float() including an optional leading sign, as an exact signed
numerator over a positive power-of-ten denominator. -/
def parseDecimal (cs : List Char) : Option (Int × Nat) :=
  match cs with
  | '+' :: rest => (parseDecimalCore rest).map (fun p => ((p.1 : Int), p.2))
  | '-' :: rest => (parseDecimalCore rest).map (fun p => (-(p.1 : Int), p.2))
  | _ => (parseDecimalCore cs).map (fun p => ((p.1 : Int), p.2))

/-- The exact rational value of a parsed decimal. -/
def decValue (p : Int × Nat) : Rat := mkRat p.1 p.2

/-- parse_hours from tempo_importer.py: blank input is rejected first, the
input is stripped, commas are replaced by dots, and the decimal value is
converted to whole seconds by multiplying by 3600 and truncating toward
zero, which for the exact value n / d (d a positive power of ten) is the
truncating integer division of n * 3600 by d, exactly int(hours * 3600). -/
def parse_hours (hoursStr : String) : Option Int :=
  if hoursStr = "" ∨ pyStrip hoursStr = "" then none
  else
    let s := (pyStrip hoursStr).data.map (fun c => if c = ',' then '.' else c)
    match parseDecimal s with
    | none => none
    | some p => some (Int.tdiv (p.1 * 3600) (p.2 : Int))

/-- Column indices (0-based), as declared at the top of tempo_importer.py. -/
def COL_DATE : Nat := 0

def COL_TASK_ID : Nat := 1

def COL_DESCRIPTION : Nat := 2

def COL_HOURS : Nat := 3

def COL_IMPORTED : Nat := 4

/-- A call of log_time_to_tempo for one row: the cleaned task key, the
parsed start date, the seconds and the description, tagged with the 1-based
row index the loop is processing. -/
structure Submission where
  rowIdx : Nat
  issueKey : String
  startDate : String
  timeSpentSeconds : Int
  workDescription : String
deriving DecidableEq

/-- One worksheet.update_cell call (row and col 1-based). -/
structure CellWrite where
  row : Nat
  col : Nat
  value : String
deriving DecidableEq

/-- State accumulated by the process_worksheet loop: the two counters and
the running hours total of the source, plus the externally visible effects
(cell writes and submission attempts) in order of occurrence. -/
structure WSState where
  imported : Nat
  skipped : Nat
  totalHours : Rat
  writes : List CellWrite
  submissions : List Submission

/-- Ambient inputs of a run: the current year used by parse_date when no
year is passed, the current date stamped into the imported column, and an
oracle telling for each row index whether log_time_to_tempo returns without
raising (resolution plus HTTP success) or raises. -/
structure Env where
  currentYear : Int
  todayD : Nat
  todayM : Nat
  todayY : Nat
  submitOk : Nat → Bool

/-- strftime "%d.%m.%Y", the marker stamped on successful import. -/
def formatDMY (d m y : Nat) : String := pad2 d ++ "." ++ pad2 m ++ "." ++ toString y

/-- The while loop padding a row to at least 5 cells with "". -/
def padRow (row : List String) : List String := row ++ List.replicate (5 - row.length) ""

/-- Counters and effect lists before the first row. -/
def initState : WSState := ⟨0, 0, mkRat 0 1, [], []⟩

/-- Body of the for loop of process_worksheet for one row, threading the
accumulated state.  Mirrors lines 669 to 735 of tempo_importer.py: pad the
row, read the five cells, parse the hours early and accrue the hours total
when the parsed seconds are truthy, then skip already-imported rows, skip
silently when a key field is empty, skip rows whose date or hours do not
validate, and otherwise either count a dry-run import or attempt the
submission, stamping the imported column and counting on success, counting
a skip on any raise. -/
def processRowStep (env : Env) (dryRun : Bool) (rowIdx : Nat) (row0 : List String) (st : WSState) : WSState :=
  let row := padRow row0
  let date_str := row.getD COL_DATE ""
  let task_id := row.getD COL_TASK_ID ""
  let descr := row.getD COL_DESCRIPTION ""
  let hours_str := row.getD COL_HOURS ""
  let impMark := row.getD COL_IMPORTED ""
  let time_seconds := parse_hours hours_str
  let st1 :=
    match time_seconds with
    | some t => if t ≠ 0 then { st with totalHours := st.totalHours + mkRat t 3600 } else st
    | none => st
  if impMark ≠ "" ∧ pyStrip impMark ≠ "" then
    { st1 with skipped := st1.skipped + 1 }
  else if date_str = "" ∨ task_id = "" ∨ hours_str = "" then
    st1
  else
    match parse_date date_str none env.currentYear with
    | none => { st1 with skipped := st1.skipped + 1 }
    | some parsed_date =>
      match time_seconds with
      | none => { st1 with skipped := st1.skipped + 1 }
      | some ts =>
        if ts = 0 then { st1 with skipped := st1.skipped + 1 }
        else
          let key := pyUpper (pyStrip task_id)
          if dryRun then { st1 with imported := st1.imported + 1 }
          else
            let sub : Submission := ⟨rowIdx, key, parsed_date, ts, descr⟩
            let st2 := { st1 with submissions := st1.submissions ++ [sub] }
            if env.submitOk rowIdx then
              { st2 with
                  writes := st2.writes ++ [⟨rowIdx, COL_IMPORTED + 1, formatDMY env.todayD env.todayM env.todayY⟩],
                  imported := st2.imported + 1 }
            else
              { st2 with skipped := st2.skipped + 1 }

/-- The for loop of process_worksheet over the data rows, carrying the
1-based index that starts at 2. -/
def processRows (env : Env) (dryRun : Bool) : Nat → List (List String) → WSState → WSState
  | _, [], st => st
  | rowIdx, row :: rest, st =>
    processRows env dryRun (rowIdx + 1) rest (processRowStep env dryRun rowIdx row st)

/-- process_worksheet on the grid returned by get_all_values: empty or
header-only grids return zero counters immediately; otherwise the header
row is dropped and the data rows are processed in order starting at row
index 2. -/
def process_worksheet (env : Env) (allValues : List (List String)) (dryRun : Bool) : WSState :=
  if allValues.length ≤ 1 then initState
  else processRows env dryRun 2 (allValues.drop 1) initState

/-- Pad a cell list with "" up to length n (the while loop in the column
direction of LocalCSVWorksheet.update_cell). -/
def padList (r : List String) (n : Nat) : List String := r ++ List.replicate (n - r.length) ""

/-- LocalCSVWorksheet.update_cell on the in-memory grid: row and col are
1-based; the grid is extended with empty rows up to the target row, the row
is extended with empty cells up to the target column, then the cell is
set. -/
def update_cell (data : List (List String)) (row col : Nat) (value : String) : List (List String) :=
  let rowIdx := row - 1
  let colIdx := col - 1
  let data2 := data ++ List.replicate (rowIdx + 1 - data.length) []
  data2.set rowIdx ((padList (data2.getD rowIdx []) (colIdx + 1)).set colIdx value)

/-- Replay a list of update_cell calls on a grid, in order. -/
def applyWrites (data : List (List String)) : List CellWrite → List (List String)
  | [] => data
  | w :: ws => applyWrites (update_cell data w.row w.col w.value) ws

/-- Componentwise combination of loop states: counters and the hours total
add, effect lists concatenate. -/
def addState (a b : WSState) : WSState :=
  ⟨a.imported + b.imported, a.skipped + b.skipped, a.totalHours + b.totalHours,
   a.writes ++ b.writes, a.submissions ++ b.submissions⟩

/-- Contribution of a single row, processed from the empty state. -/
def rowDelta (env : Env) (dryRun : Bool) (rowIdx : Nat) (row0 : List String) : WSState :=
  processRowStep env dryRun rowIdx row0 initState

/-- Sum of the per-row contributions of a row list, indices increasing. -/
def sumDeltas (env : Env) (dryRun : Bool) : Nat → List (List String) → WSState
  | _, [] => initState
  | rowIdx, row :: rest => addState (rowDelta env dryRun rowIdx row) (sumDeltas env dryRun (rowIdx + 1) rest)

/-- The marker test of line 686: the imported cell is truthy and strips to
a non-empty string. -/
def alreadyMarked (row0 : List String) : Bool :=
  decide ((padRow row0).getD COL_IMPORTED "" ≠ "" ∧ pyStrip ((padRow row0).getD COL_IMPORTED "") ≠ "")

/-- The empty-row test of line 691: date, task id or hours cell is the
empty string. -/
def keyFieldMissing (row0 : List String) : Bool :=
  decide ((padRow row0).getD COL_DATE "" = "" ∨ (padRow row0).getD COL_TASK_ID "" = ""
    ∨ (padRow row0).getD COL_HOURS "" = "")

/-- Path condition under which the loop reaches the submission (or dry-run
count) for a row: not already marked, no key field empty, date parses, and
the parsed seconds are truthy. -/
def importable (env : Env) (row0 : List String) : Bool :=
  !alreadyMarked row0 && !keyFieldMissing row0
    && (parse_date ((padRow row0).getD COL_DATE "") none env.currentYear).isSome
    && (match parse_hours ((padRow row0).getD COL_HOURS "") with
        | some t => decide (t ≠ 0)
        | none => false)

/-- Hours contribution of one row to the running total: the parsed seconds
over 3600, and zero when the hours cell does not parse (a parse of exactly
zero seconds is not added by the code, which adds the same zero). -/
def hoursOf (row0 : List String) : Rat :=
  match parse_hours ((padRow row0).getD COL_HOURS "") with
  | some t => mkRat t 3600
  | none => mkRat 0 1

/-- The command line arguments accepted by main (argparse, lines 765-770):
dry-run, the year override, the setup flag and the file override. -/
structure Args where
  dryRun : Bool
  year : Option Int
  setup : Bool
  fileOverride : Option String

/-- The single call site of process_worksheet in main (line 809): only
args.dry_run is passed; args.year is not threaded anywhere. -/
def mainProcessCall (args : Args) (env : Env) (allValues : List (List String)) : WSState :=
  process_worksheet env allValues args.dryRun

/-- Concrete environment for witnesses: current year 2026, current date
12.10.2026, every submission succeeds. -/
def envW : Env := ⟨2026, 12, 10, 2026, fun _ => true⟩

/-- Concrete environment in which every submission raises. -/
def envF : Env := ⟨2026, 12, 10, 2026, fun _ => false⟩

/-- Witness grid with a marked and an unmarked data row. -/
def gridW : List (List String) :=
  [["date", "task", "desc", "hours", "imported"],
   ["1.1", "PROJ-1", "x", "2", "done"],
   ["2.1", "PROJ-2", "y", "1", ""]]

/-- The 3-row end-to-end source of the specification: one already-marked
row, one row with unparseable hours, one valid row. -/
def gridE2E : List (List String) :=
  [["date", "task", "desc", "hours", "imported"],
   ["1.1", "PROJ-1", "x", "", "01.01.2025"],
   ["2.1", "PROJ-2", "y", "abc", ""],
   ["3.1", "proj-3", "z", "2.5", ""]]

/-- Row with a blank date but non-blank task id and hours: not all three
key fields are absent. -/
def gridBlankDate : List (List String) :=
  [["date", "task", "desc", "hours", "imported"],
   ["", "PROJ-1", "x", "2", ""]]

/-- Row whose hours cell parses to exactly zero seconds. -/
def gridZeroHours : List (List String) :=
  [["date", "task", "desc", "hours", "imported"],
   ["1.1", "PROJ-1", "x", "0", ""]]

/-- Row whose hours cell parses to negative seconds. -/
def gridNegHours : List (List String) :=
  [["date", "task", "desc", "hours", "imported"],
   ["1.1", "PROJ-1", "x", "-1", ""]]

theorem mkRat_zero_one : mkRat 0 1 = 0 := by
  norm_num [Rat.mkRat_eq_div]

theorem addState_initState_left (x : WSState) : addState initState x = x := by
  cases x with
  | mk a b c d e => simp [addState, initState, mkRat_zero_one]

theorem addState_initState_right (x : WSState) : addState x initState = x := by
  cases x with
  | mk a b c d e => simp [addState, initState, mkRat_zero_one]

theorem addState_assoc (x y z : WSState) :
    addState (addState x y) z = addState x (addState y z) := by
  simp [addState, add_assoc]

/-- The loop body only increments counters, adds to the total and appends
effects, so its action on any state is the action on the empty state added
componentwise. -/
theorem processRowStep_add (env : Env) (d : Bool) (i : Nat) (r : List String) (st : WSState) :
    processRowStep env d i r st = addState st (processRowStep env d i r initState) := by
  cases st with
  | mk imp skp th ws ss =>
    unfold processRowStep
    cases hts : parse_hours ((padRow r).getD COL_HOURS "") with
    | none =>
      cases hpd : parse_date ((padRow r).getD COL_DATE "") none env.currentYear <;>
        simp only [hts, hpd] <;> split_ifs <;>
        simp [addState, initState, mkRat_zero_one]
    | some t =>
      cases hpd : parse_date ((padRow r).getD COL_DATE "") none env.currentYear <;>
        simp only [hts, hpd] <;> split_ifs <;>
        simp [addState, initState, mkRat_zero_one]

theorem processRows_eq_sum (env : Env) (d : Bool) :
    ∀ (rs : List (List String)) (i : Nat) (st : WSState),
      processRows env d i rs st = addState st (sumDeltas env d i rs) := by
  intro rs
  induction rs with
  | nil => intro i st; simp [processRows, sumDeltas, addState_initState_right]
  | cons r rest ih =>
    intro i st
    rw [processRows, ih, processRowStep_add, sumDeltas, addState_assoc]
    rfl

/-- Closed form of process_worksheet for a grid with at least one data
row. -/
theorem process_worksheet_eq_sum (env : Env) (d : Bool) (g : List (List String))
    (h : 2 ≤ g.length) :
    process_worksheet env g d = sumDeltas env d 2 (g.drop 1) := by
  rw [process_worksheet, if_neg (by omega), processRows_eq_sum, addState_initState_left]

/-- The submission built for an importable row. -/
def rowSubOf (env : Env) (rowIdx : Nat) (row0 : List String) : Submission :=
  ⟨rowIdx, pyUpper (pyStrip ((padRow row0).getD COL_TASK_ID "")),
   (parse_date ((padRow row0).getD COL_DATE "") none env.currentYear).getD "",
   (parse_hours ((padRow row0).getD COL_HOURS "")).getD 0,
   (padRow row0).getD COL_DESCRIPTION ""⟩

/-- The cell write issued for a successfully imported row. -/
def rowWriteOf (env : Env) (rowIdx : Nat) : CellWrite :=
  ⟨rowIdx, COL_IMPORTED + 1, formatDMY env.todayD env.todayM env.todayY⟩

theorem importable_iff (env : Env) (r : List String) :
    importable env r = true ↔
      alreadyMarked r = false ∧ keyFieldMissing r = false ∧
      (∃ pd, parse_date ((padRow r).getD COL_DATE "") none env.currentYear = some pd) ∧
      (∃ ts, parse_hours ((padRow r).getD COL_HOURS "") = some ts ∧ ts ≠ 0) := by
  unfold importable
  rw [Bool.and_eq_true, Bool.and_eq_true, Bool.and_eq_true,
    Bool.not_eq_true', Bool.not_eq_true']
  constructor
  · rintro ⟨⟨⟨hm, hk⟩, hpd⟩, hts⟩
    refine ⟨hm, hk, Option.isSome_iff_exists.mp hpd, ?_⟩
    revert hts
    cases hp : parse_hours ((padRow r).getD COL_HOURS "") with
    | none => intro hts; cases hts
    | some t => intro hts; exact ⟨t, rfl, by simpa using hts⟩
  · rintro ⟨hm, hk, ⟨pd, hpd⟩, ⟨ts, hts, htsne⟩⟩
    refine ⟨⟨⟨hm, hk⟩, ?_⟩, ?_⟩
    · rw [hpd]; rfl
    · rw [hts]; simpa using htsne

theorem rowDelta_totalHours (env : Env) (d : Bool) (i : Nat) (r : List String) :
    (rowDelta env d i r).totalHours = hoursOf r := by
  unfold rowDelta processRowStep hoursOf
  cases hts : parse_hours ((padRow r).getD COL_HOURS "") with
  | none =>
    cases hpd : parse_date ((padRow r).getD COL_DATE "") none env.currentYear <;>
      simp only [hts, hpd] <;> split_ifs <;>
      simp [initState, mkRat_zero_one]
  | some t =>
    cases hpd : parse_date ((padRow r).getD COL_DATE "") none env.currentYear <;>
      simp only [hts, hpd] <;> split_ifs <;>
      simp_all [initState, mkRat_zero_one]

theorem rowDelta_marked (env : Env) (d : Bool) (i : Nat) (r : List String)
    (h : alreadyMarked r = true) :
    (rowDelta env d i r).imported = 0 ∧ (rowDelta env d i r).skipped = 1 ∧
    (rowDelta env d i r).writes = [] ∧ (rowDelta env d i r).submissions = [] := by
  rw [alreadyMarked, decide_eq_true_eq] at h
  unfold rowDelta processRowStep
  cases hts : parse_hours ((padRow r).getD COL_HOURS "") with
  | none => simp only [hts, if_pos h]; simp [initState]
  | some t => simp only [hts, if_pos h]; split_ifs <;> simp [initState]

theorem rowDelta_missing (env : Env) (d : Bool) (i : Nat) (r : List String)
    (hm : alreadyMarked r = false) (hk : keyFieldMissing r = true) :
    (rowDelta env d i r).imported = 0 ∧ (rowDelta env d i r).skipped = 0 ∧
    (rowDelta env d i r).writes = [] ∧ (rowDelta env d i r).submissions = [] := by
  rw [alreadyMarked, decide_eq_false_iff_not] at hm
  rw [keyFieldMissing, decide_eq_true_eq] at hk
  unfold rowDelta processRowStep
  cases hts : parse_hours ((padRow r).getD COL_HOURS "") with
  | none => simp only [hts, if_neg hm, if_pos hk]; simp [initState]
  | some t => simp only [hts, if_neg hm, if_pos hk]; split_ifs <;> simp [initState]

theorem rowDelta_invalid (env : Env) (d : Bool) (i : Nat) (r : List String)
    (hm : alreadyMarked r = false) (hk : keyFieldMissing r = false)
    (hni : importable env r = false) :
    (rowDelta env d i r).imported = 0 ∧ (rowDelta env d i r).skipped = 1 ∧
    (rowDelta env d i r).writes = [] ∧ (rowDelta env d i r).submissions = [] := by
  have hmB := hm
  have hkB := hk
  rw [alreadyMarked, decide_eq_false_iff_not] at hm
  rw [keyFieldMissing, decide_eq_false_iff_not] at hk
  unfold rowDelta processRowStep
  cases hts : parse_hours ((padRow r).getD COL_HOURS "") with
  | none =>
    cases hpd : parse_date ((padRow r).getD COL_DATE "") none env.currentYear <;>
      simp only [hts, hpd, if_neg hm, if_neg hk] <;> simp [initState]
  | some t =>
    cases hpd : parse_date ((padRow r).getD COL_DATE "") none env.currentYear with
    | none =>
      simp only [hts, hpd, if_neg hm, if_neg hk]; split_ifs <;> simp [initState]
    | some pd =>
      have ht0 : t = 0 := by
        by_contra htne
        have himp : importable env r = true :=
          (importable_iff env r).mpr ⟨hmB, hkB, ⟨pd, hpd⟩, ⟨t, hts, htne⟩⟩
        rw [hni] at himp
        cases himp
      subst ht0
      simp only [hts, hpd, if_neg hm, if_neg hk]
      split_ifs <;> simp_all [initState]

theorem rowDelta_dry (env : Env) (i : Nat) (r : List String)
    (himp : importable env r = true) :
    (rowDelta env true i r).imported = 1 ∧ (rowDelta env true i r).skipped = 0 ∧
    (rowDelta env true i r).writes = [] ∧ (rowDelta env true i r).submissions = [] := by
  rw [importable_iff] at himp
  obtain ⟨hm, hk, ⟨pd, hpd⟩, ⟨ts, hts, htsne⟩⟩ := himp
  rw [alreadyMarked, decide_eq_false_iff_not] at hm
  rw [keyFieldMissing, decide_eq_false_iff_not] at hk
  unfold rowDelta processRowStep
  simp only [hts, hpd, if_neg hm, if_neg hk, if_neg htsne]
  split_ifs <;> simp [initState]

theorem rowDelta_live_ok (env : Env) (i : Nat) (r : List String)
    (himp : importable env r = true) (hok : env.submitOk i = true) :
    (rowDelta env false i r).imported = 1 ∧ (rowDelta env false i r).skipped = 0 ∧
    (rowDelta env false i r).writes = [rowWriteOf env i] ∧
    (rowDelta env false i r).submissions = [rowSubOf env i r] := by
  rw [importable_iff] at himp
  obtain ⟨hm, hk, ⟨pd, hpd⟩, ⟨ts, hts, htsne⟩⟩ := himp
  rw [alreadyMarked, decide_eq_false_iff_not] at hm
  rw [keyFieldMissing, decide_eq_false_iff_not] at hk
  unfold rowDelta processRowStep
  simp only [hts, hpd, if_neg hm, if_neg hk, if_neg htsne, hok]
  split_ifs <;> simp_all [initState, rowSubOf, rowWriteOf, hpd, hts]

theorem rowDelta_live_fail (env : Env) (i : Nat) (r : List String)
    (himp : importable env r = true) (hok : env.submitOk i = false) :
    (rowDelta env false i r).imported = 0 ∧ (rowDelta env false i r).skipped = 1 ∧
    (rowDelta env false i r).writes = [] ∧
    (rowDelta env false i r).submissions = [rowSubOf env i r] := by
  rw [importable_iff] at himp
  obtain ⟨hm, hk, ⟨pd, hpd⟩, ⟨ts, hts, htsne⟩⟩ := himp
  rw [alreadyMarked, decide_eq_false_iff_not] at hm
  rw [keyFieldMissing, decide_eq_false_iff_not] at hk
  unfold rowDelta processRowStep
  simp only [hts, hpd, if_neg hm, if_neg hk, if_neg htsne, hok]
  split_ifs <;> simp_all [initState, rowSubOf, rowWriteOf, hpd, hts]

/-- Whatever the branch, a row never contributes a submission record tagged
with a different row index. -/
theorem rowDelta_subs_rowIdx (env : Env) (d : Bool) (i : Nat) (r : List String)
    (s : Submission) (hs : s ∈ (rowDelta env d i r).submissions) : s.rowIdx = i := by
  unfold rowDelta processRowStep at hs
  rcases hts : parse_hours ((padRow r).getD COL_HOURS "") with _ | t <;>
  rcases hpd : parse_date ((padRow r).getD COL_DATE "") none env.currentYear with _ | pd <;>
  simp only [hts, hpd] at hs <;>
  split_ifs at hs <;>
  simp_all [initState]

/-- Whatever the branch, the only write a row can issue targets its own row
index, column 5, with the formatted current date as value. -/
theorem rowDelta_writes_eq (env : Env) (d : Bool) (i : Nat) (r : List String)
    (w : CellWrite) (hw : w ∈ (rowDelta env d i r).writes) : w = rowWriteOf env i := by
  unfold rowDelta processRowStep at hw
  rcases hts : parse_hours ((padRow r).getD COL_HOURS "") with _ | t <;>
  rcases hpd : parse_date ((padRow r).getD COL_DATE "") none env.currentYear with _ | pd <;>
  simp only [hts, hpd] at hw <;>
  split_ifs at hw <;>
  simp_all [initState, rowWriteOf]

@[simp] theorem addState_imported (a b : WSState) : (addState a b).imported = a.imported + b.imported := rfl

@[simp] theorem addState_skipped (a b : WSState) : (addState a b).skipped = a.skipped + b.skipped := rfl

@[simp] theorem addState_totalHours (a b : WSState) : (addState a b).totalHours = a.totalHours + b.totalHours := rfl

@[simp] theorem addState_writes (a b : WSState) : (addState a b).writes = a.writes ++ b.writes := rfl

@[simp] theorem addState_subs (a b : WSState) : (addState a b).submissions = a.submissions ++ b.submissions := rfl

@[simp] theorem initState_imported : initState.imported = 0 := rfl

@[simp] theorem initState_skipped : initState.skipped = 0 := rfl

@[simp] theorem initState_totalHours : initState.totalHours = 0 := by
  simp [initState, mkRat_zero_one]

@[simp] theorem initState_writes : initState.writes = [] := rfl

@[simp] theorem initState_subs : initState.submissions = [] := rfl

@[simp] theorem rowWriteOf_row (env : Env) (i : Nat) : (rowWriteOf env i).row = i := rfl

@[simp] theorem rowWriteOf_col (env : Env) (i : Nat) : (rowWriteOf env i).col = 5 := rfl

@[simp] theorem rowWriteOf_value (env : Env) (i : Nat) :
    (rowWriteOf env i).value = formatDMY env.todayD env.todayM env.todayY := rfl

/-- A row that does not reach the submission branch contributes no effects
and no import count, in any mode. -/
theorem rowDelta_not_importable (env : Env) (d : Bool) (i : Nat) (r : List String)
    (hni : importable env r = false) :
    (rowDelta env d i r).imported = 0 ∧
    (rowDelta env d i r).writes = [] ∧ (rowDelta env d i r).submissions = [] := by
  cases hm : alreadyMarked r with
  | true =>
    obtain ⟨h1, _, h3, h4⟩ := rowDelta_marked env d i r hm
    exact ⟨h1, h3, h4⟩
  | false =>
    cases hk : keyFieldMissing r with
    | true =>
      obtain ⟨h1, _, h3, h4⟩ := rowDelta_missing env d i r hm hk
      exact ⟨h1, h3, h4⟩
    | false =>
      obtain ⟨h1, _, h3, h4⟩ := rowDelta_invalid env d i r hm hk hni
      exact ⟨h1, h3, h4⟩

/-- A dry run issues no submission and no write, importable row or not. -/
theorem rowDelta_dry_noeffects (env : Env) (i : Nat) (r : List String) :
    (rowDelta env true i r).writes = [] ∧ (rowDelta env true i r).submissions = [] := by
  cases himp : importable env r with
  | true =>
    obtain ⟨_, _, h3, h4⟩ := rowDelta_dry env i r himp
    exact ⟨h3, h4⟩
  | false =>
    obtain ⟨_, h3, h4⟩ := rowDelta_not_importable env true i r himp
    exact ⟨h3, h4⟩

/-- In a dry run a row counts as imported exactly when it is importable. -/
theorem rowDelta_dry_imported (env : Env) (i : Nat) (r : List String) :
    (rowDelta env true i r).imported = (if importable env r then 1 else 0) := by
  cases himp : importable env r with
  | true => simpa using (rowDelta_dry env i r himp).1
  | false => simpa using (rowDelta_not_importable env true i r himp).1

/-- A row issues at most one write. -/
theorem rowDelta_writes_len (env : Env) (d : Bool) (i : Nat) (r : List String) :
    (rowDelta env d i r).writes.length ≤ 1 := by
  unfold rowDelta processRowStep
  rcases hts : parse_hours ((padRow r).getD COL_HOURS "") with _ | t <;>
  rcases hpd : parse_date ((padRow r).getD COL_DATE "") none env.currentYear with _ | pd <;>
  simp only [hts, hpd] <;>
  split_ifs <;>
  simp [initState]

theorem sumDeltas_subs_mem (env : Env) (d : Bool) :
    ∀ (rs : List (List String)) (i : Nat) (s : Submission),
      s ∈ (sumDeltas env d i rs).submissions ↔
        ∃ j r, rs[j]? = some r ∧ s ∈ (rowDelta env d (i + j) r).submissions := by
  intro rs
  induction rs with
  | nil => intro i s; simp [sumDeltas]
  | cons r rest ih =>
    intro i s
    rw [sumDeltas]
    simp only [addState_subs, List.mem_append]
    constructor
    · rintro (h | h)
      · exact ⟨0, r, by simp, by simpa using h⟩
      · obtain ⟨j, r2, hj, hmem⟩ := (ih (i + 1) s).mp h
        refine ⟨j + 1, r2, by simpa using hj, ?_⟩
        have he : i + (j + 1) = (i + 1) + j := by omega
        rw [he]
        exact hmem
    · rintro ⟨j, r2, hj, hmem⟩
      cases j with
      | zero =>
        left
        simp only [List.getElem?_cons_zero, Option.some.injEq] at hj
        subst hj
        simpa using hmem
      | succ j =>
        right
        refine (ih (i + 1) s).mpr ⟨j, r2, by simpa using hj, ?_⟩
        have he : (i + 1) + j = i + (j + 1) := by omega
        rw [he]
        exact hmem

theorem sumDeltas_writes_mem (env : Env) (d : Bool) :
    ∀ (rs : List (List String)) (i : Nat) (w : CellWrite),
      w ∈ (sumDeltas env d i rs).writes ↔
        ∃ j r, rs[j]? = some r ∧ w ∈ (rowDelta env d (i + j) r).writes := by
  intro rs
  induction rs with
  | nil => intro i w; simp [sumDeltas]
  | cons r rest ih =>
    intro i w
    rw [sumDeltas]
    simp only [addState_writes, List.mem_append]
    constructor
    · rintro (h | h)
      · exact ⟨0, r, by simp, by simpa using h⟩
      · obtain ⟨j, r2, hj, hmem⟩ := (ih (i + 1) w).mp h
        refine ⟨j + 1, r2, by simpa using hj, ?_⟩
        have he : i + (j + 1) = (i + 1) + j := by omega
        rw [he]
        exact hmem
    · rintro ⟨j, r2, hj, hmem⟩
      cases j with
      | zero =>
        left
        simp only [List.getElem?_cons_zero, Option.some.injEq] at hj
        subst hj
        simpa using hmem
      | succ j =>
        right
        refine (ih (i + 1) w).mpr ⟨j, r2, by simpa using hj, ?_⟩
        have he : (i + 1) + j = i + (j + 1) := by omega
        rw [he]
        exact hmem

theorem sumDeltas_writes_shape (env : Env) (d : Bool) (rs : List (List String))
    (i : Nat) (w : CellWrite) (hw : w ∈ (sumDeltas env d i rs).writes) :
    ∃ j r, rs[j]? = some r ∧ j < rs.length ∧ w = rowWriteOf env (i + j) := by
  obtain ⟨j, r, hj, hmem⟩ := (sumDeltas_writes_mem env d rs i w).mp hw
  exact ⟨j, r, hj, (List.getElem?_eq_some.mp hj).1, rowDelta_writes_eq env d (i + j) r w hmem⟩

theorem sumDeltas_writes_row_bound (env : Env) (d : Bool) (rs : List (List String))
    (i : Nat) (w : CellWrite) (hw : w ∈ (sumDeltas env d i rs).writes) :
    i ≤ w.row ∧ w.row < i + rs.length := by
  obtain ⟨j, r, _, hjlt, hwe⟩ := sumDeltas_writes_shape env d rs i w hw
  subst hwe
  simp only [rowWriteOf_row]
  omega

theorem pairwise_of_len_le_one {α : Type} (R : α → α → Prop) :
    ∀ (l : List α) , l.length ≤ 1 → l.Pairwise R := by
  intro l
  match l with
  | [] => intro h; exact List.Pairwise.nil
  | [a] => intro h; exact List.pairwise_singleton R a
  | a :: b :: tl => intro h; simp at h

/-- Writes of distinct rows are tagged with distinct row indices. -/
theorem sumDeltas_writes_pairwise (env : Env) (d : Bool) :
    ∀ (rs : List (List String)) (i : Nat),
      List.Pairwise (fun a b => a.row ≠ b.row) (sumDeltas env d i rs).writes := by
  intro rs
  induction rs with
  | nil => intro i; simp [sumDeltas]
  | cons r rest ih =>
    intro i
    rw [sumDeltas]
    simp only [addState_writes]
    rw [List.pairwise_append]
    refine ⟨pairwise_of_len_le_one _ _ (rowDelta_writes_len env d i r), ih (i + 1), ?_⟩
    intro a ha b hb
    have ha2 := rowDelta_writes_eq env d i r a ha
    have hb2 := (sumDeltas_writes_row_bound env d rest (i + 1) b hb).1
    subst ha2
    simp only [rowWriteOf_row]
    omega

theorem update_cell_length (data : List (List String)) (r c : Nat) (v : String)
    (h1 : 1 ≤ r) (h2 : r ≤ data.length) :
    (update_cell data r c v).length = data.length := by
  unfold update_cell
  have h0 : r - 1 + 1 - data.length = 0 := by omega
  simp [h0]

theorem update_cell_getElem_ne (data : List (List String)) (r c : Nat) (v : String) (j : Nat)
    (h1 : 1 ≤ r) (h2 : r ≤ data.length) (hj : j ≠ r - 1) :
    (update_cell data r c v)[j]? = data[j]? := by
  unfold update_cell
  have h0 : r - 1 + 1 - data.length = 0 := by omega
  simp [h0, List.getElem?_set_ne (Ne.symm hj)]

theorem update_cell_getElem_self (data : List (List String)) (r c : Nat) (v : String)
    (h1 : 1 ≤ r) (h2 : r ≤ data.length) :
    (update_cell data r c v)[r - 1]? =
      some ((padList (data.getD (r - 1) []) (c - 1 + 1)).set (c - 1) v) := by
  unfold update_cell
  have h0 : r - 1 + 1 - data.length = 0 := by omega
  have hlt : r - 1 < data.length := by omega
  simp [h0, List.getElem?_set_self, hlt]

theorem applyWrites_length :
    ∀ (ws : List CellWrite) (data : List (List String)),
      (∀ w ∈ ws, 1 ≤ w.row ∧ w.row ≤ data.length) →
      (applyWrites data ws).length = data.length := by
  intro ws
  induction ws with
  | nil => intro data _; rfl
  | cons a ws ih =>
    intro data h
    have ha := h a (by simp)
    have hlen := update_cell_length data a.row a.col a.value ha.1 ha.2
    rw [applyWrites,
      ih _ (fun w hw => ⟨(h w (List.mem_cons_of_mem a hw)).1,
        by rw [hlen]; exact (h w (List.mem_cons_of_mem a hw)).2⟩), hlen]

theorem applyWrites_getElem_ne :
    ∀ (ws : List CellWrite) (data : List (List String)) (j : Nat),
      (∀ w ∈ ws, 1 ≤ w.row ∧ w.row ≤ data.length) →
      (∀ w ∈ ws, w.row ≠ j + 1) →
      (applyWrites data ws)[j]? = data[j]? := by
  intro ws
  induction ws with
  | nil => intro data j _ _; rfl
  | cons a ws ih =>
    intro data j h hj
    have ha := h a (by simp)
    have haj := hj a (by simp)
    have hlen := update_cell_length data a.row a.col a.value ha.1 ha.2
    rw [applyWrites,
      ih _ j (fun w hw => ⟨(h w (List.mem_cons_of_mem a hw)).1,
        by rw [hlen]; exact (h w (List.mem_cons_of_mem a hw)).2⟩)
        (fun w hw => hj w (List.mem_cons_of_mem a hw)),
      update_cell_getElem_ne data a.row a.col a.value j ha.1 ha.2 (by omega)]

theorem applyWrites_getElem_mem :
    ∀ (ws : List CellWrite) (data : List (List String)) (w : CellWrite),
      w ∈ ws → List.Pairwise (fun a b => a.row ≠ b.row) ws →
      (∀ u ∈ ws, 2 ≤ u.row ∧ u.row ≤ data.length) →
      (applyWrites data ws)[w.row - 1]? =
        some ((padList (data.getD (w.row - 1) []) (w.col - 1 + 1)).set (w.col - 1) w.value) := by
  intro ws
  induction ws with
  | nil => intro data w hw; cases hw
  | cons a ws ih =>
    intro data w hw hpair hb
    have ha := hb a (by simp)
    have hlen := update_cell_length data a.row a.col a.value (by omega) ha.2
    rw [applyWrites]
    rcases List.mem_cons.mp hw with rfl | hw2
    · have hne : ∀ u ∈ ws, u.row ≠ (w.row - 1) + 1 := by
        intro u hu
        have hru := (List.pairwise_cons.mp hpair).1 u hu
        omega
      rw [applyWrites_getElem_ne ws _ (w.row - 1)
        (fun u hu => ⟨by have := hb u (List.mem_cons_of_mem w hu); omega,
          by rw [hlen]; exact (hb u (List.mem_cons_of_mem w hu)).2⟩) hne]
      exact update_cell_getElem_self data w.row w.col w.value (by omega) ha.2
    · have hwb := hb w (List.mem_cons_of_mem a hw2)
      have hane := (List.pairwise_cons.mp hpair).1 w hw2
      have hD : (update_cell data a.row a.col a.value).getD (w.row - 1) [] =
          data.getD (w.row - 1) [] := by
        rw [List.getD_eq_getElem?_getD, List.getD_eq_getElem?_getD,
          update_cell_getElem_ne data a.row a.col a.value (w.row - 1) (by omega) ha.2 (by omega)]
      rw [← hD]
      exact ih _ w hw2 (List.pairwise_cons.mp hpair).2
        (fun u hu => ⟨(hb u (List.mem_cons_of_mem a hu)).1,
          by rw [hlen]; exact (hb u (List.mem_cons_of_mem a hu)).2⟩)

theorem mem_dropWhile_of_not {α : Type} (p : α → Bool) :
    ∀ (l : List α) (c : α), c ∈ l → p c = false → c ∈ l.dropWhile p := by
  intro l
  induction l with
  | nil => intro c hc; cases hc
  | cons a l ih =>
    intro c hc hp
    rw [List.dropWhile_cons]
    cases hpa : p a with
    | false =>
      simp only [hpa, Bool.false_eq_true, if_false]
      exact hc
    | true =>
      simp only [hpa, if_true]
      rcases List.mem_cons.mp hc with rfl | hc2
      · rw [hp] at hpa; cases hpa
      · exact ih c hc2 hp

theorem mem_pyStripList (c : Char) (cs : List Char) (hc : c ∈ cs)
    (hns : isPySpace c = false) : c ∈ pyStripList cs := by
  unfold pyStripList
  rw [List.mem_reverse]
  exact mem_dropWhile_of_not isPySpace _ c
    (List.mem_reverse.mpr (mem_dropWhile_of_not isPySpace cs c hc hns)) hns

theorem strData_append (a b : String) : (a ++ b).data = a.data ++ b.data := rfl

theorem dot_mem_formatDMY (d m y : Nat) : '.' ∈ (formatDMY d m y).data := by
  unfold formatDMY
  rw [strData_append, strData_append, strData_append, strData_append]
  simp only [List.mem_append]
  left; right
  simp [String.data]

theorem formatDMY_ne_empty (d m y : Nat) : formatDMY d m y ≠ "" := by
  intro he
  have h2 : (formatDMY d m y).data = [] := congrArg String.data he
  have h3 := dot_mem_formatDMY d m y
  rw [h2] at h3
  cases h3

theorem pyStrip_formatDMY_ne_empty (d m y : Nat) : pyStrip (formatDMY d m y) ≠ "" := by
  intro he
  have h2 : pyStripList (formatDMY d m y).data = [] := congrArg String.data he
  have h3 := mem_pyStripList '.' (formatDMY d m y).data (dot_mem_formatDMY d m y) (by decide)
  rw [h2] at h3
  cases h3

theorem padList_length_ge (r : List String) (n : Nat) : n ≤ (padList r n).length := by
  simp only [padList, List.length_append, List.length_replicate]
  omega

theorem padRow_of_len_ge (l : List String) (h : 5 ≤ l.length) : padRow l = l := by
  have h0 : 5 - l.length = 0 := by omega
  simp [padRow, h0]

/-- Setting the marker column of a padded row to a non-blank value makes
the row already-marked. -/
theorem alreadyMarked_set4 (r0 : List String) (v : String) (hv : v ≠ "")
    (hv2 : pyStrip v ≠ "") :
    alreadyMarked ((padList r0 5).set 4 v) = true := by
  have hlen : 5 ≤ ((padList r0 5).set 4 v).length := by
    rw [List.length_set]; exact padList_length_ge r0 5
  have hget : ((padList r0 5).set 4 v).getD COL_IMPORTED "" = v := by
    have h4 : 4 < (padList r0 5).length := by have := padList_length_ge r0 5; omega
    rw [List.getD_eq_getElem?_getD]
    simp [COL_IMPORTED, List.getElem?_set_self, h4]
  rw [alreadyMarked, decide_eq_true_eq, padRow_of_len_ge _ hlen, hget]
  exact ⟨hv, hv2⟩

/-- Every submission of a run comes from some data row, is tagged with
that row's 1-based index, and is among that row's contributions. -/
theorem pw_subs_shape (env : Env) (d : Bool) (grid : List (List String)) (s : Submission)
    (hs : s ∈ (process_worksheet env grid d).submissions) :
    ∃ j r, (grid.drop 1)[j]? = some r ∧ s.rowIdx = 2 + j ∧
      s ∈ (rowDelta env d (2 + j) r).submissions := by
  by_cases hlen : grid.length ≤ 1
  · rw [process_worksheet, if_pos hlen] at hs
    cases hs
  · rw [process_worksheet_eq_sum env d grid (by omega)] at hs
    obtain ⟨j, r, hj, hmem⟩ := (sumDeltas_subs_mem env d _ 2 s).mp hs
    exact ⟨j, r, hj, rowDelta_subs_rowIdx env d (2 + j) r s hmem, hmem⟩

/-- Every write of a run stamps column 5 of some data row with the
formatted current date. -/
theorem pw_writes_shape (env : Env) (d : Bool) (grid : List (List String)) (w : CellWrite)
    (hw : w ∈ (process_worksheet env grid d).writes) :
    ∃ j r, (grid.drop 1)[j]? = some r ∧ j + 2 ≤ grid.length ∧ w = rowWriteOf env (2 + j) := by
  by_cases hlen : grid.length ≤ 1
  · rw [process_worksheet, if_pos hlen] at hw
    cases hw
  · rw [process_worksheet_eq_sum env d grid (by omega)] at hw
    obtain ⟨j, r, hj, hjlt, hwe⟩ := sumDeltas_writes_shape env d _ 2 w hw
    rw [List.length_drop] at hjlt
    exact ⟨j, r, hj, by omega, hwe⟩

theorem pw_writes_bounds (env : Env) (d : Bool) (grid : List (List String)) (w : CellWrite)
    (hw : w ∈ (process_worksheet env grid d).writes) :
    2 ≤ w.row ∧ w.row ≤ grid.length := by
  obtain ⟨j, r, _, hjle, hwe⟩ := pw_writes_shape env d grid w hw
  subst hwe
  simp only [rowWriteOf_row]
  omega

theorem pw_writes_pairwise (env : Env) (d : Bool) (grid : List (List String)) :
    List.Pairwise (fun a b => a.row ≠ b.row) (process_worksheet env grid d).writes := by
  by_cases hlen : grid.length ≤ 1
  · rw [process_worksheet, if_pos hlen]
    exact List.Pairwise.nil
  · rw [process_worksheet_eq_sum env d grid (by omega)]
    exact sumDeltas_writes_pairwise env d _ 2

/-- C1: a row whose imported-marker cell is non-blank is never submitted:
no submission of any run carries its row index, and the loop body on such a
row only increments the skipped counter, before any parsing or remote call
side effect.  Moreover every marker a live run writes is a non-blank date
string, and rerunning on the updated grid (with any environment) issues no
submission for any row the first run marked. -/
theorem C1_marker_guard_idempotence (env env2 : Env) (grid : List (List String)) (d : Bool) :
    (∀ i r, (grid.drop 1)[i]? = some r → alreadyMarked r = true →
      ∀ s ∈ (process_worksheet env grid d).submissions, s.rowIdx ≠ 2 + i)
    ∧ (∀ (st : WSState) (i : Nat) (r : List String), alreadyMarked r = true →
        (processRowStep env d i r st).skipped = st.skipped + 1 ∧
        (processRowStep env d i r st).imported = st.imported ∧
        (processRowStep env d i r st).submissions = st.submissions ∧
        (processRowStep env d i r st).writes = st.writes)
    ∧ (∀ w ∈ (process_worksheet env grid false).writes,
        w.value ≠ "" ∧ pyStrip w.value ≠ "")
    ∧ (∀ w ∈ (process_worksheet env grid false).writes,
        ∀ s ∈ (process_worksheet env2
          (applyWrites grid (process_worksheet env grid false).writes) false).submissions,
        s.rowIdx ≠ w.row) := by
  refine ⟨?_, ?_, ?_, ?_⟩
  · intro i r hir hmark s hs hrow
    obtain ⟨j, r2, hj, hidx, hmem⟩ := pw_subs_shape env d grid s hs
    have hji : j = i := by omega
    subst hji
    rw [hir] at hj
    cases hj
    have hsubs := (rowDelta_marked env d (2 + j) r hmark).2.2.2
    rw [hsubs] at hmem
    cases hmem
  · intro st i r hmark
    have hadd := processRowStep_add env d i r st
    have hdelta := rowDelta_marked env d i r hmark
    rw [hadd]
    unfold rowDelta at hdelta
    simp [hdelta.1, hdelta.2.1, hdelta.2.2.1, hdelta.2.2.2]
  · intro w hw
    obtain ⟨j, r, hj, hjle, hwe⟩ := pw_writes_shape env false grid w hw
    subst hwe
    simp only [rowWriteOf_value]
    exact ⟨formatDMY_ne_empty _ _ _, pyStrip_formatDMY_ne_empty _ _ _⟩
  · intro w hw s hs hrow
    have hbounds : ∀ u ∈ (process_worksheet env grid false).writes,
        2 ≤ u.row ∧ u.row ≤ grid.length := fun u hu => pw_writes_bounds env false grid u hu
    have hpair := pw_writes_pairwise env false grid
    obtain ⟨j, r, hj, hjle, hwe⟩ := pw_writes_shape env false grid w hw
    have hlen2 : (applyWrites grid (process_worksheet env grid false).writes).length
        = grid.length :=
      applyWrites_length _ grid (fun u hu => ⟨by have := (hbounds u hu).1; omega, (hbounds u hu).2⟩)
    have hcell := applyWrites_getElem_mem (process_worksheet env grid false).writes grid w hw
      hpair hbounds
    rw [hwe] at hcell
    simp only [rowWriteOf_row, rowWriteOf_col, rowWriteOf_value] at hcell
    obtain ⟨j2, r2, hj2, hidx2, hmem2⟩ := pw_subs_shape env2 false _ s hs
    have hj2j : j2 = j := by
      rw [hwe] at hrow
      simp only [rowWriteOf_row] at hrow
      omega
    subst hj2j
    rw [List.getElem?_drop] at hj2
    have hidxeq : 1 + j2 = 2 + j2 - 1 := by omega
    rw [hidxeq, hcell] at hj2
    cases hj2
    have hmarked : alreadyMarked ((padList (grid.getD (2 + j2 - 1) []) (5 - 1 + 1)).set (5 - 1)
        (formatDMY env.todayD env.todayM env.todayY)) = true := by
      exact alreadyMarked_set4 _ _ (formatDMY_ne_empty _ _ _) (pyStrip_formatDMY_ne_empty _ _ _)
    have hsubs := (rowDelta_marked env2 false (2 + j2) _ hmarked).2.2.2
    rw [hsubs] at hmem2
    cases hmem2

theorem sumDeltas_dry_noeffects (env : Env) :
    ∀ (rs : List (List String)) (i : Nat),
      (sumDeltas env true i rs).writes = [] ∧ (sumDeltas env true i rs).submissions = [] := by
  intro rs
  induction rs with
  | nil => intro i; simp [sumDeltas]
  | cons r rest ih =>
    intro i
    rw [sumDeltas]
    simp only [addState_writes, addState_subs]
    rw [(rowDelta_dry_noeffects env i r).1, (rowDelta_dry_noeffects env i r).2,
      (ih (i + 1)).1, (ih (i + 1)).2]
    simp

theorem sumDeltas_dry_imported_count (env : Env) :
    ∀ (rs : List (List String)) (i : Nat),
      (sumDeltas env true i rs).imported = rs.countP (fun r => importable env r) := by
  intro rs
  induction rs with
  | nil => intro i; simp [sumDeltas]
  | cons r rest ih =>
    intro i
    rw [sumDeltas]
    simp only [addState_imported]
    rw [rowDelta_dry_imported, ih (i + 1), List.countP_cons]
    cases himp : importable env r with
    | true => simp only [himp, if_true]; omega
    | false => simp [himp]

/-- C2: a dry run issues no submission and writes no cell, so replaying its
(empty) writes leaves the source grid unchanged, and its imported counter
counts exactly the rows that would have been importable. -/
theorem C2_dry_run_no_mutation (env : Env) (grid : List (List String)) :
    (process_worksheet env grid true).submissions = [] ∧
    (process_worksheet env grid true).writes = [] ∧
    applyWrites grid (process_worksheet env grid true).writes = grid ∧
    (process_worksheet env grid true).imported =
      (grid.drop 1).countP (fun r => importable env r) := by
  by_cases hlen : grid.length ≤ 1
  · have hdrop : grid.drop 1 = [] := List.drop_eq_nil_of_le hlen
    rw [process_worksheet, if_pos hlen]
    refine ⟨rfl, rfl, rfl, ?_⟩
    rw [hdrop]
    rfl
  · rw [process_worksheet_eq_sum env true grid (by omega)]
    obtain ⟨hw, hs⟩ := sumDeltas_dry_noeffects env (grid.drop 1) 2
    refine ⟨hs, hw, ?_, sumDeltas_dry_imported_count env (grid.drop 1) 2⟩
    rw [hw]
    rfl

/-- C5: parse_hours accepts both fractional separators and truncates the
product with 3600 toward zero; non-numeric text yields no hours. -/
theorem C5_parse_hours_separators :
    parse_hours "2,5" = some 9000 ∧ parse_hours "2.5" = some 9000 ∧
    parse_hours "abc" = none ∧
    parse_hours "0.0001" = some 0 ∧ parse_hours "-0.0001" = some 0 := by
  decide

/-- C7 counterexample: on the one-row source whose data row has a blank
date but a non-blank task id and non-blank hours, being excluded from both
counters is not equivalent to all three key fields being absent: the row is
excluded although two of the three fields are present. -/
theorem C7_counterexample_not_all_absent :
    ¬ (((process_worksheet envW gridBlankDate false).imported = 0 ∧
        (process_worksheet envW gridBlankDate false).skipped = 0) ↔
       (((gridBlankDate.drop 1).getD 0 []).getD COL_DATE "" = "" ∧
        ((gridBlankDate.drop 1).getD 0 []).getD COL_TASK_ID "" = "" ∧
        ((gridBlankDate.drop 1).getD 0 []).getD COL_HOURS "" = "")) := by
  decide

/-- C7 (amended): a row with blank marker and at least one of date, task id
or hours empty is excluded from both counters and produces no effects. -/
theorem C7_skip_empty_uncounted (env : Env) (d : Bool) (st : WSState) (i : Nat)
    (r : List String) (hm : alreadyMarked r = false) (hk : keyFieldMissing r = true) :
    (processRowStep env d i r st).imported = st.imported ∧
    (processRowStep env d i r st).skipped = st.skipped ∧
    (processRowStep env d i r st).writes = st.writes ∧
    (processRowStep env d i r st).submissions = st.submissions := by
  rw [processRowStep_add]
  have h := rowDelta_missing env d i r hm hk
  unfold rowDelta at h
  simp [h.1, h.2.1, h.2.2.1, h.2.2.2]

theorem C7_skip_empty_uncounted_witness :
    alreadyMarked ["", "", "", "", ""] = false ∧
    keyFieldMissing ["", "", "", "", ""] = true ∧
    (processRowStep envW false 2 ["", "", "", "", ""] initState).skipped = initState.skipped ∧
    (processRowStep envW false 2 ["", "", "", "", ""] initState).imported = initState.imported :=
  ⟨by decide, by decide,
   (C7_skip_empty_uncounted envW false initState 2 _ (by decide) (by decide)).2.1,
   (C7_skip_empty_uncounted envW false initState 2 _ (by decide) (by decide)).1⟩

/-- C8: the year override is parsed into the arguments but the call site of
process_worksheet passes only the dry-run flag, so the whole outcome of
processing is independent of the year argument. -/
theorem C8_year_flag_not_threaded (a : Args) (env : Env) (grid : List (List String))
    (y1 y2 : Option Int) :
    mainProcessCall { a with year := y1 } env grid
      = mainProcessCall { a with year := y2 } env grid := rfl

/-- C9: hours parsing to exactly zero seconds fails the truthiness check
and the row is skipped without submission, while negative hours are truthy
and get submitted. -/
theorem C9_zero_hours_skipped_negative_submitted :
    parse_hours "0" = some 0 ∧ parse_hours "0.0001" = some 0 ∧
    parse_hours "-1" = some (-3600) ∧
    (process_worksheet envW gridZeroHours false).skipped = 1 ∧
    (process_worksheet envW gridZeroHours false).imported = 0 ∧
    (process_worksheet envW gridZeroHours false).submissions = [] ∧
    (process_worksheet envW gridNegHours false).submissions =
      [⟨2, "PROJ-1", "2026-01-01", -3600, "x"⟩] ∧
    (process_worksheet envW gridNegHours false).imported = 1 := by
  decide

theorem C1_marker_guard_idempotence_witness :
    alreadyMarked ["1.1", "PROJ-1", "x", "2", "done"] = true ∧
    (processRowStep envW false 2 ["1.1", "PROJ-1", "x", "2", "done"] initState).skipped
      = initState.skipped + 1 ∧
    (processRowStep envW false 2 ["1.1", "PROJ-1", "x", "2", "done"] initState).submissions
      = initState.submissions ∧
    (processRowStep envW false 2 ["1.1", "PROJ-1", "x", "2", "done"] initState).writes
      = initState.writes :=
  ⟨by decide,
   ((C1_marker_guard_idempotence envW envW gridW false).2.1 initState 2 _ (by decide)).1,
   ((C1_marker_guard_idempotence envW envW gridW false).2.1 initState 2 _ (by decide)).2.2.1,
   ((C1_marker_guard_idempotence envW envW gridW false).2.1 initState 2 _ (by decide)).2.2.2⟩

theorem processRows_append (env : Env) (d : Bool) :
    ∀ (rs1 rs2 : List (List String)) (i : Nat) (st : WSState),
      processRows env d i (rs1 ++ rs2) st
        = processRows env d (i + rs1.length) rs2 (processRows env d i rs1 st) := by
  intro rs1
  induction rs1 with
  | nil => intro rs2 i st; simp [processRows]
  | cons r rest ih =>
    intro rs2 i st
    rw [List.cons_append, processRows, processRows, ih]
    have he : i + 1 + rest.length = i + (rest.length + 1) := by omega
    rw [he]
    rfl

theorem pw_eq_processRows (env : Env) (d : Bool) (g : List (List String)) :
    process_worksheet env g d = processRows env d 2 (g.drop 1) initState := by
  by_cases hlen : g.length ≤ 1
  · have hdrop : g.drop 1 = [] := List.drop_eq_nil_of_le hlen
    rw [process_worksheet, if_pos hlen, hdrop]
    rfl
  · rw [process_worksheet, if_neg hlen]

/-- C3: live processing of a grid whose data row at 1-based index
pre.length + 1 is importable: processing always continues over the
remaining rows from the state left by that row; on submission success the
row is counted imported and the current date marker write for its row is
appended; on a raise the row is counted skipped, no write is issued, and
the submission attempt is still recorded. -/
theorem C3_live_submit_mark_or_skip (env : Env) (pre post : List (List String))
    (row : List String) (h1 : 1 ≤ pre.length) (h2 : importable env row = true) :
    process_worksheet env (pre ++ row :: post) false
      = processRows env false (pre.length + 2) post
          (processRowStep env false (pre.length + 1) row (process_worksheet env pre false))
    ∧ (env.submitOk (pre.length + 1) = true →
        (processRowStep env false (pre.length + 1) row (process_worksheet env pre false)).imported
          = (process_worksheet env pre false).imported + 1 ∧
        (processRowStep env false (pre.length + 1) row (process_worksheet env pre false)).skipped
          = (process_worksheet env pre false).skipped ∧
        (processRowStep env false (pre.length + 1) row (process_worksheet env pre false)).writes
          = (process_worksheet env pre false).writes ++ [rowWriteOf env (pre.length + 1)] ∧
        (processRowStep env false (pre.length + 1) row (process_worksheet env pre false)).submissions
          = (process_worksheet env pre false).submissions ++ [rowSubOf env (pre.length + 1) row])
    ∧ (env.submitOk (pre.length + 1) = false →
        (processRowStep env false (pre.length + 1) row (process_worksheet env pre false)).imported
          = (process_worksheet env pre false).imported ∧
        (processRowStep env false (pre.length + 1) row (process_worksheet env pre false)).skipped
          = (process_worksheet env pre false).skipped + 1 ∧
        (processRowStep env false (pre.length + 1) row (process_worksheet env pre false)).writes
          = (process_worksheet env pre false).writes ∧
        (processRowStep env false (pre.length + 1) row (process_worksheet env pre false)).submissions
          = (process_worksheet env pre false).submissions ++ [rowSubOf env (pre.length + 1) row]) := by
  refine ⟨?_, ?_, ?_⟩
  · rw [pw_eq_processRows env false (pre ++ row :: post)]
    have hdrop : (pre ++ row :: post).drop 1 = pre.drop 1 ++ row :: post :=
      List.drop_append_of_le_length h1
    rw [hdrop, processRows_append]
    have hlen : (pre.drop 1).length = pre.length - 1 := List.length_drop 1 pre
    rw [hlen]
    have he : 2 + (pre.length - 1) = pre.length + 1 := by omega
    rw [he, processRows, ← pw_eq_processRows env false pre]
  · intro hok
    rw [processRowStep_add]
    have h := rowDelta_live_ok env (pre.length + 1) row h2 hok
    unfold rowDelta at h
    simp [h.1, h.2.1, h.2.2.1, h.2.2.2]
  · intro hok
    rw [processRowStep_add]
    have h := rowDelta_live_fail env (pre.length + 1) row h2 hok
    unfold rowDelta at h
    simp [h.1, h.2.1, h.2.2.1, h.2.2.2]

theorem C3_live_submit_mark_or_skip_witness :
    importable envW ["2.1", "PROJ-2", "y", "1", ""] = true ∧
    envW.submitOk 2 = true ∧
    (processRowStep envW false 2 ["2.1", "PROJ-2", "y", "1", ""]
        (process_worksheet envW [["date", "task", "desc", "hours", "imported"]] false)).imported
      = (process_worksheet envW [["date", "task", "desc", "hours", "imported"]] false).imported
        + 1 ∧
    (processRowStep envW false 2 ["2.1", "PROJ-2", "y", "1", ""]
        (process_worksheet envW [["date", "task", "desc", "hours", "imported"]] false)).writes
      = (process_worksheet envW [["date", "task", "desc", "hours", "imported"]] false).writes
        ++ [rowWriteOf envW 2] :=
  ⟨by decide, by decide,
   ((C3_live_submit_mark_or_skip envW [["date", "task", "desc", "hours", "imported"]] []
      ["2.1", "PROJ-2", "y", "1", ""] (by decide) (by decide)).2.1 (by decide)).1,
   ((C3_live_submit_mark_or_skip envW [["date", "task", "desc", "hours", "imported"]] []
      ["2.1", "PROJ-2", "y", "1", ""] (by decide) (by decide)).2.1 (by decide)).2.2.1⟩

theorem sumDeltas_totalHours (env : Env) (d : Bool) :
    ∀ (rs : List (List String)) (i : Nat),
      (sumDeltas env d i rs).totalHours = (rs.map (fun r => hoursOf r)).sum := by
  intro rs
  induction rs with
  | nil => intro i; simp [sumDeltas]
  | cons r rest ih =>
    intro i
    rw [sumDeltas]
    simp only [addState_totalHours, List.map_cons, List.sum_cons]
    rw [rowDelta_totalHours, ih (i + 1)]

/-- C6: the hours total of a run is the sum, over all data rows and in any
mode, of the parsed hours of rows whose hours cell parses (zero for the
rest), independent of the import or skip outcome; on the 3-row end-to-end
source the live run yields one import, two skips, and a total equal to the
valid row's two and a half hours. -/
theorem C6_total_hours_accounting (env : Env) (grid : List (List String)) (d : Bool) :
    (process_worksheet env grid d).totalHours = ((grid.drop 1).map (fun r => hoursOf r)).sum
    ∧ (process_worksheet envW gridE2E false).imported = 1
    ∧ (process_worksheet envW gridE2E false).skipped = 2
    ∧ (process_worksheet envW gridE2E false).totalHours = mkRat 5 2 := by
  refine ⟨?_, by decide, by decide, ?_⟩
  · by_cases hlen : grid.length ≤ 1
    · have hdrop : grid.drop 1 = [] := List.drop_eq_nil_of_le hlen
      rw [process_worksheet, if_pos hlen, hdrop]
      simp
    · rw [process_worksheet_eq_sum env d grid (by omega)]
      exact sumDeltas_totalHours env d (grid.drop 1) 2
  · have h := sumDeltas_totalHours envW false (gridE2E.drop 1) 2
    rw [process_worksheet_eq_sum envW false gridE2E (by decide), h]
    have h1 : hoursOf ["1.1", "PROJ-1", "x", "", "01.01.2025"] = mkRat 0 1 := by decide
    have h2 : hoursOf ["2.1", "PROJ-2", "y", "abc", ""] = mkRat 0 1 := by decide
    have h3 : hoursOf ["3.1", "proj-3", "z", "2.5", ""] = mkRat 9000 3600 := by decide
    show hoursOf ["1.1", "PROJ-1", "x", "", "01.01.2025"]
      + (hoursOf ["2.1", "PROJ-2", "y", "abc", ""]
        + (hoursOf ["3.1", "proj-3", "z", "2.5", ""] + 0)) = mkRat 5 2
    rw [h1, h2, h3]
    norm_num [Rat.mkRat_eq_div]

theorem exists_dropWhile_append_of_not {p : Char → Bool} (c : Char) (hc : p c = false) :
    ∀ (l1 l2 : List Char), ∃ u, (l1 ++ c :: l2).dropWhile p = u ++ c :: l2 := by
  intro l1
  induction l1 with
  | nil =>
    intro l2
    refine ⟨[], ?_⟩
    simp only [List.nil_append]
    rw [List.dropWhile_cons, if_neg (by simp [hc])]
  | cons a l1 ih =>
    intro l2
    rw [List.cons_append, List.dropWhile_cons]
    by_cases hpa : p a = true
    · simpa [hpa] using ih l2
    · refine ⟨a :: l1, ?_⟩
      simp [hpa]

/-- Stripping whitespace and trailing dots preserves the leading
characters 1, dot, 1, 2 of the date text, whatever follows them. -/
theorem stripRstrip_shape (rest : String) :
    ∃ tail, (pyRstripDots (pyStrip ("1.12" ++ rest))).data
      = '1' :: '.' :: '1' :: '2' :: tail := by
  have hfront : List.dropWhile isPySpace ('1' :: '.' :: '1' :: '2' :: rest.data)
      = '1' :: '.' :: '1' :: '2' :: rest.data := by
    rw [List.dropWhile_cons, if_neg (by decide)]
  obtain ⟨u, hu⟩ := exists_dropWhile_append_of_not (p := isPySpace) '2' (by decide)
    rest.data.reverse ['1', '.', '1']
  have hstrip : pyStripList ('1' :: '.' :: '1' :: '2' :: rest.data)
      = '1' :: '.' :: '1' :: '2' :: u.reverse := by
    unfold pyStripList
    rw [hfront]
    have hrev : ('1' :: '.' :: '1' :: '2' :: rest.data).reverse
        = rest.data.reverse ++ '2' :: ['1', '.', '1'] := by simp
    rw [hrev, hu]
    simp
  have hdd : (pyStrip ("1.12" ++ rest)).data = '1' :: '.' :: '1' :: '2' :: u.reverse := hstrip
  obtain ⟨u2, hu2⟩ := exists_dropWhile_append_of_not (p := fun c => decide (c = '.')) '2'
    (by decide) u ['1', '.', '1']
  refine ⟨u2.reverse, ?_⟩
  unfold pyRstripDots
  dsimp only
  rw [hdd]
  have hrev2 : ('1' :: '.' :: '1' :: '2' :: u.reverse).reverse
      = u ++ '2' :: ['1', '.', '1'] := by simp
  rw [hrev2, hu2]
  simp

theorem matchDM_1_12 (tail : List Char) :
    matchDM ('1' :: '.' :: '1' :: '2' :: tail) = some (1, 12) := rfl

/-- Any input beginning 1.12 parses to December 1 of the supplied year,
subject only to calendar validity; everything after the leading match is
ignored. -/
theorem parse_date_112_rest (rest : String) (y : Int) :
    parse_date ("1.12" ++ rest) none y
      = if dateValid y 12 1 then some (formatYMD y 12 1) else none := by
  have hdata : ("1.12" ++ rest).data = '1' :: '.' :: '1' :: '2' :: rest.data := rfl
  have hne1 : ("1.12" ++ rest) ≠ "" := by
    intro he
    have h2 : ('1' : Char) :: '.' :: '1' :: '2' :: rest.data = [] := by
      rw [← hdata, he]
    cases h2
  have hne2 : pyStrip ("1.12" ++ rest) ≠ "" := by
    intro he
    have h2 : pyStripList ("1.12" ++ rest).data = [] := congrArg String.data he
    have h3 := mem_pyStripList '1' (("1.12" ++ rest).data) (by rw [hdata]; simp) (by decide)
    rw [h2] at h3
    cases h3
  obtain ⟨tail, htail⟩ := stripRstrip_shape rest
  unfold parse_date
  rw [if_neg (by push_neg; exact ⟨hne1, hne2⟩)]
  dsimp only
  rw [htail, matchDM_1_12]
  rfl

theorem dateValid_12_1 (y : Int) (h1 : 1 ≤ y) (h2 : y ≤ 9999) : dateValid y 12 1 = true := by
  rw [dateValid, decide_eq_true_eq]
  refine ⟨h1, h2, by norm_num, by norm_num, by norm_num, ?_⟩
  simp [daysInMonth]

theorem dateValid_2_31 (y : Int) : dateValid y 2 31 = false := by
  rw [dateValid, decide_eq_false_iff_not]
  rintro ⟨_, _, _, _, _, hle⟩
  simp only [daysInMonth, if_pos rfl] at hle
  split_ifs at hle <;> omega

/-- C4: parse_date on D.M input with trailing dot defaults the year; an
invalid calendar date or blank or unparseable input yields none. -/
theorem C4_parse_date_defaults (y : Int) (h1 : 1 ≤ y) (h2 : y ≤ 9999) :
    parse_date "1.12." none y = some (formatYMD y 12 1) ∧
    parse_date "31.2." none y = none ∧
    parse_date "" none y = none ∧
    parse_date "   " none y = none ∧
    parse_date "abc" none y = none := by
  refine ⟨?_, ?_, rfl, rfl, rfl⟩
  · have h := parse_date_112_rest "." y
    have he : ("1.12" ++ "." : String) = "1.12." := rfl
    rw [he] at h
    rw [h, if_pos (dateValid_12_1 y h1 h2)]
  · have h312 : parse_date "31.2." none y
        = if dateValid y 2 31 then some (formatYMD y 2 31) else none := rfl
    rw [h312, dateValid_2_31]
    simp

theorem C4_parse_date_defaults_witness :
    (1 : Int) ≤ 2026 ∧ (2026 : Int) ≤ 9999 ∧
    formatYMD 2026 12 1 = "2026-12-01" ∧
    parse_date "1.12." none 2026 = some (formatYMD 2026 12 1) ∧
    parse_date "31.2." none 2026 = none :=
  ⟨by decide, by decide, by decide,
   (C4_parse_date_defaults 2026 (by decide) (by decide)).1,
   (C4_parse_date_defaults 2026 (by decide) (by decide)).2.1⟩

/-- C10: the regex match is anchored only at the front, so trailing
content after the day and month is ignored; an explicit year in the input
is discarded and the supplied current year used. -/
theorem C10_trailing_content_ignored (rest : String) (y : Int)
    (h1 : 1 ≤ y) (h2 : y ≤ 9999) :
    parse_date ("1.12" ++ rest) none y = some (formatYMD y 12 1) ∧
    parse_date "1.12.2025" none y = parse_date "1.12" none y ∧
    parse_date "1.12abc" none y = parse_date "1.12" none y := by
  have hgen : ∀ r : String, parse_date ("1.12" ++ r) none y = some (formatYMD y 12 1) := by
    intro r
    rw [parse_date_112_rest r y, if_pos (dateValid_12_1 y h1 h2)]
  refine ⟨hgen rest, ?_, ?_⟩
  · rw [show ("1.12.2025" : String) = "1.12" ++ ".2025" from rfl, hgen ".2025",
      show ("1.12" : String) = "1.12" ++ "" from rfl, hgen ""]
  · rw [show ("1.12abc" : String) = "1.12" ++ "abc" from rfl, hgen "abc",
      show ("1.12" : String) = "1.12" ++ "" from rfl, hgen ""]

theorem C10_trailing_content_ignored_witness :
    (1 : Int) ≤ 2026 ∧ (2026 : Int) ≤ 9999 ∧
    parse_date ("1.12" ++ ".2025") none 2026 = some (formatYMD 2026 12 1) ∧
    parse_date "1.12.2025" none 2026 = parse_date "1.12" none 2026 :=
  ⟨by decide, by decide,
   (C10_trailing_content_ignored ".2025" 2026 (by decide) (by decide)).1,
   (C10_trailing_content_ignored ".2025" 2026 (by decide) (by decide)).2.1⟩

